import Mathlib

/-!
Shallow embedding of the `master` package (src/service.go): the service
lifecycle coordinator of a supervised network worker.  Pure data and
control flow are translated directly; OS effects (user lookup, setgid,
setuid, chroot, chdir, net.Listen, net.FileListener) are parameters of
the embedding, and side-effecting functions return explicit event traces.
Go `int` is 64-bit two's complement; where arithmetic overflow could
matter (the connection counter) values are wrapped with `wrap64`.
-/

namespace Master

/-- Two's-complement wrap of a mathematical integer into the 64-bit
signed range, modelling overflow of a Go `int`. -/
def wrap64 (x : Int) : Int := (x + 2 ^ 63) % 2 ^ 64 - 2 ^ 63

/-- `const stateFd = 5` in service.go. -/
def stateFd : Nat := 5

/-- `const listenFdStart = 6` in service.go. -/
def listenFdStart : Nat := 6

/-- The module-level mutable state of service.go (the `var` blocks),
with the three registered lifecycle hooks abstracted over a handler
type `H` (in Go they are function values that are only stored). -/
structure MasterState (H : Type) where
  listenFdCount : Int
  confPath : String
  sockType : String
  services : String
  privilege : Bool
  verbose : Bool
  chrootOn : Bool
  preJailHandler : Option H
  initHandler : Option H
  exitHandler : Option H
  connCount : Int
  stopping : Bool
  waitExit : Int
  prepareCalled : Bool
  logPath : String
  username : String
  masterArgs : String
  rootDir : String
  deriving DecidableEq

/-- The initial values of the module-level variables of service.go. -/
def initState (H : Type) : MasterState H where
  listenFdCount := 1
  confPath := ""
  sockType := ""
  services := ""
  privilege := false
  verbose := false
  chrootOn := false
  preJailHandler := none
  initHandler := none
  exitHandler := none
  connCount := 0
  stopping := false
  waitExit := 10
  prepareCalled := false
  logPath := ""
  username := ""
  masterArgs := ""
  rootDir := ""

/-- `connCountInc`: `connCount++` under the exclusive lock. -/
def connCountInc {H : Type} (s : MasterState H) : MasterState H :=
  { s with connCount := wrap64 (s.connCount + 1) }

/-- `connCountDec`: `connCount--` under the exclusive lock. -/
def connCountDec {H : Type} (s : MasterState H) : MasterState H :=
  { s with connCount := wrap64 (s.connCount - 1) }

/-- `connCountCur`: snapshot read of `connCount` under the shared lock. -/
def connCountCur {H : Type} (s : MasterState H) : Int :=
  s.connCount

/-- One counter operation: an increment or a decrement.  Because every
operation runs under the single mutex, a concurrent history is a
serialized sequence of these operations. -/
inductive CounterOp where
  | inc
  | dec
  deriving DecidableEq

/-- Run a serialized sequence of counter operations from a state. -/
def runOps {H : Type} (s : MasterState H) (ops : List CounterOp) : MasterState H :=
  ops.foldl (fun st op =>
    match op with
    | CounterOp.inc => connCountInc st
    | CounterOp.dec => connCountDec st) s

/-- Number of increments in a sequence of counter operations. -/
def countInc (ops : List CounterOp) : Nat :=
  ops.count CounterOp.inc

/-- Number of decrements in a sequence of counter operations. -/
def countDec (ops : List CounterOp) : Nat :=
  ops.count CounterOp.dec

/-- Digit run of Go `strconv.Atoi`: a non-empty all-digit string parses
to its decimal value, anything else is a parse error. -/
def parseDigits (cs : List Char) : Option Nat :=
  if cs = [] then none
  else if cs.all Char.isDigit then
    some (cs.foldl (fun a c => a * 10 + (c.toNat - 48)) 0)
  else none

/-- Go `strconv.Atoi`: optional sign followed by digits; `none` models
the error return (range clamping of huge literals is not modelled). -/
def goAtoi (str : String) : Option Int :=
  match str.toList with
  | '-' :: rest => (parseDigits rest).map (fun n => -(n : Int))
  | '+' :: rest => (parseDigits rest).map (fun n => (n : Int))
  | cs => (parseDigits cs).map (fun n => (n : Int))

/-- Value actually assigned by `listenFdCount, _ = strconv.Atoi(v)`:
Go discards the error, and `Atoi` yields 0 alongside an error. -/
def goAtoiInt (str : String) : Int :=
  (goAtoi str).getD 0

/-- The `parseArgs` scan over `os.Args`: a linear walk that recognises
the seven flags, consuming one value argument for `-s -f -t -n`. -/
def parseArgsLoop {H : Type} (s : MasterState H) : List String → MasterState H
  | [] => s
  | "-s" :: [] => s
  | "-s" :: v :: rest =>
    let c := goAtoiInt v
    parseArgsLoop { s with listenFdCount := if c ≤ 0 then 1 else c } rest
  | "-f" :: [] => s
  | "-f" :: v :: rest => parseArgsLoop { s with confPath := v } rest
  | "-t" :: [] => s
  | "-t" :: v :: rest => parseArgsLoop { s with sockType := v } rest
  | "-n" :: [] => s
  | "-n" :: v :: rest => parseArgsLoop { s with services := v } rest
  | "-u" :: rest => parseArgsLoop { s with privilege := true } rest
  | "-v" :: rest => parseArgsLoop { s with verbose := true } rest
  | "-c" :: rest => parseArgsLoop { s with chrootOn := true } rest
  | _ :: rest => parseArgsLoop s rest

/-- `Prepare`: gated on `prepareCalled`; otherwise parses the arguments
and loads the four configuration keys.  `conf path key` models reading
`key` from the configuration file at `path` (the external `Config`
collaborator). -/
def Prepare {H : Type} (conf : String → String → String) (s : MasterState H)
    (args : List String) : MasterState H :=
  if s.prepareCalled then s
  else
    let s1 := parseArgsLoop { s with prepareCalled := true } args
    { s1 with
      logPath := conf s1.confPath "master_log"
      masterArgs := conf s1.confPath "master_args"
      username := conf s1.confPath "fiber_owner"
      rootDir := conf s1.confPath "fiber_queue_dir" }

/-- Log lines emitted by the embedded functions, identified by site. -/
inductive LogTag where
  | lookupErr
  | invalidGid
  | setgidErr
  | setgidOk
  | invalidUid
  | setuidErr
  | setuidOk
  | chrootErr
  | chrootOk
  | chdirErr
  | chdirOk
  | waitingMaster
  | disconnected
  | closingListener
  | draining
  | waitedTooLong
  | exitingNow
  deriving DecidableEq

/-- Observable events of the embedded side-effecting functions: identity
syscalls, lifecycle transitions of the shutdown monitor, and hook
invocations.  `callPreJailHandler` and `callInitHandler` exist in the
alphabet so that their absence from every trace is a statable fact. -/
inductive Ev where
  | log (tag : LogTag)
  | lookupUser (name : String)
  | setgidCall (gid : Int)
  | setuidCall (uid : Int)
  | chrootCall (dir : String)
  | chdirCall
  | setStopping
  | callStopHook
  | closeListener (idx : Nat)
  | readCounter (c : Int)
  | sleepSecond
  | callExitCb (stop : Bool)
  | callPreJailHandler
  | callInitHandler
  | callExitHandler
  deriving DecidableEq

/-- Result of `user.Lookup`: the `Uid` and `Gid` fields (strings in Go). -/
structure GoUser where
  uid : String
  gid : String
  deriving DecidableEq

/-- Outcomes of the OS calls made by `chroot`, supplied as an
environment: which users resolve and whether each syscall succeeds. -/
structure SysEnv where
  lookup : String → Option GoUser
  setgid : Int → Bool
  setuid : Int → Bool
  chroot : String → Bool
  chdir : Bool

/-- The gid arm of `chroot`: parse `user.Gid`, attempt `Setgid`, log. -/
def chrootGidEvents (env : SysEnv) (u : GoUser) : List Ev :=
  match goAtoi u.gid with
  | none => [Ev.log LogTag.invalidGid]
  | some g =>
    if env.setgid g then [Ev.setgidCall g, Ev.log LogTag.setgidOk]
    else [Ev.setgidCall g, Ev.log LogTag.setgidErr]

/-- The uid arm of `chroot`: parse `user.Uid`, attempt `Setuid`, log. -/
def chrootUidEvents (env : SysEnv) (u : GoUser) : List Ev :=
  match goAtoi u.uid with
  | none => [Ev.log LogTag.invalidUid]
  | some n =>
    if env.setuid n then [Ev.setuidCall n, Ev.log LogTag.setuidOk]
    else [Ev.setuidCall n, Ev.log LogTag.setuidErr]

/-- The confinement tail of `chroot`: `Chroot` then `Chdir("/")`,
attempted whenever the chroot flag is on and a directory is set,
independently of the identity arms. -/
def chrootConfineEvents {H : Type} (s : MasterState H) (env : SysEnv) : List Ev :=
  if s.chrootOn ∧ s.rootDir ≠ "" then
    if env.chroot s.rootDir then
      Ev.chrootCall s.rootDir :: Ev.log LogTag.chrootOk ::
        (if env.chdir then [Ev.chdirCall, Ev.log LogTag.chdirOk]
         else [Ev.chdirCall, Ev.log LogTag.chdirErr])
    else [Ev.chrootCall s.rootDir, Ev.log LogTag.chrootErr]
  else []

/-- `chroot` (the privilege-drop routine): the short-circuit gate, the
username lookup, the gid then uid arms, then the confinement tail. -/
def chroot {H : Type} (s : MasterState H) (env : SysEnv) : List Ev :=
  if s.masterArgs = "" ∨ s.privilege = false ∨ s.username = "" then []
  else
    (Ev.lookupUser s.username ::
      (match env.lookup s.username with
       | none => [Ev.log LogTag.lookupErr]
       | some u => chrootGidEvents env u ++ chrootUidEvents env u)) ++
      chrootConfineEvents s env

/-- `getListenersByAddrs`: bind each address in order with `net.Listen`;
the first failure panics (modelled as `Except.error` carrying the panic
message), so no partial list escapes. -/
def getListenersByAddrs {L : Type} (netListen : String → Except String L) :
    List String → Except String (List L)
  | [] => Except.ok []
  | addr :: rest =>
    match netListen addr with
    | Except.error e =>
      Except.error ("listen error=\"" ++ e ++ "\", addr=" ++ addr)
    | Except.ok ln =>
      match getListenersByAddrs netListen rest with
      | Except.error e => Except.error e
      | Except.ok lns => Except.ok (ln :: lns)

/-- The loop body of `getListeners`, scanning `count` descriptors from
`fd` upward; `fileListener f` is the outcome of `net.FileListener` on
descriptor `f`, and a `none` outcome is logged and skipped. -/
def getListenersFrom {L : Type} (fileListener : Nat → Option L) (fd : Nat) :
    Nat → List (Nat × L)
  | 0 => []
  | n + 1 =>
    match fileListener fd with
    | none => getListenersFrom fileListener (fd + 1) n
    | some ln => (fd, ln) :: getListenersFrom fileListener (fd + 1) n

/-- `getListeners`: inherited-mode acquisition over descriptors
`[listenFdStart, listenFdStart + count)`, keeping the descriptor number
with each converted listener. -/
def getListeners {L : Type} (fileListener : Nat → Option L) (count : Nat) :
    List (Nat × L) :=
  getListenersFrom fileListener listenFdStart count

/-- The fallback of `monitorMaster` when no stop hook is registered:
log and close each acquired listener, in order. -/
def closeEvents (numListeners : Nat) : List Ev :=
  (List.range numListeners).flatMap
    (fun k => [Ev.log LogTag.closingListener, Ev.closeListener k])

/-- The drain loop of `monitorMaster`.  `snaps k` is the counter value
observed by the snapshot read of the iteration that has already slept
`k` times (the counter changes concurrently, so it is an arbitrary
stream); `w` is `waitExit`; `fuel` bounds the number of modelled
iterations, `none` meaning the loop has not exited within `fuel` polls. -/
def drainLoop (snaps : Nat → Int) (w : Int) : Nat → Nat → Option (List Ev)
  | 0, _ => none
  | fuel + 1, i =>
    if snaps i ≤ 0 then some [Ev.readCounter (snaps i)]
    else if 0 < w ∧ w ≤ (i : Int) + 1 then
      some [Ev.readCounter (snaps i), Ev.sleepSecond, Ev.log LogTag.draining,
        Ev.log LogTag.waitedTooLong]
    else
      (drainLoop snaps w fuel (i + 1)).map
        (fun tr => Ev.readCounter (snaps i) :: Ev.sleepSecond ::
          Ev.log LogTag.draining :: tr)

/-- `monitorMaster` from the point its control-connection read returns
(`readErr` tells whether the read returned an error/end-of-stream or
data — the code only logs the difference): set `stopping`, run the stop
hook or close every listener, drain, then call the exit callback. -/
def monitorMaster (readErr : Bool) (hasStopHandler : Bool) (numListeners : Nat)
    (snaps : Nat → Int) (w : Int) (fuel : Nat) : Option (List Ev) :=
  (drainLoop snaps w fuel 0).map
    (fun dr =>
      (Ev.log LogTag.waitingMaster ::
          (if readErr then [Ev.log LogTag.disconnected] else [])) ++
        ([Ev.setStopping] ++
          (if hasStopHandler then [Ev.callStopHook] else closeEvents numListeners) ++
          dr ++ [Ev.log LogTag.exitingNow, Ev.callExitCb true]))

/-- `OnPreJail`: store the pre-privilege-drop hook (last one wins). -/
def OnPreJail {H : Type} (s : MasterState H) (handler : H) : MasterState H :=
  { s with preJailHandler := some handler }

/-- `OnInit`: store the post-initialization hook (last one wins). -/
def OnInit {H : Type} (s : MasterState H) (handler : H) : MasterState H :=
  { s with initHandler := some handler }

/-- `OnExit`: store the exit hook (last one wins). -/
def OnExit {H : Type} (s : MasterState H) (handler : H) : MasterState H :=
  { s with exitHandler := some handler }

/-! ### The connection counter (C1) -/

lemma wrap64_eq_self {x : Int} (h1 : -(2 ^ 63) ≤ x) (h2 : x < 2 ^ 63) :
    wrap64 x = x := by
  have hb : (2 : Int) ^ 64 = 2 ^ 63 + 2 ^ 63 := by norm_num
  have h3 : 0 ≤ x + 2 ^ 63 := by linarith
  have h4 : x + 2 ^ 63 < 2 ^ 64 := by linarith
  unfold wrap64
  rw [Int.emod_eq_of_lt h3 h4]
  ring

lemma runOps_append {H : Type} (s : MasterState H) (l1 l2 : List CounterOp) :
    runOps s (l1 ++ l2) = runOps (runOps s l1) l2 := by
  simp [runOps, List.foldl_append]

lemma runOps_inc {H : Type} (s : MasterState H) :
    runOps s [CounterOp.inc] = connCountInc s := rfl

lemma runOps_dec {H : Type} (s : MasterState H) :
    runOps s [CounterOp.dec] = connCountDec s := rfl

lemma countInc_append (l1 l2 : List CounterOp) :
    countInc (l1 ++ l2) = countInc l1 + countInc l2 := by
  simp [countInc, List.count_append]

lemma countDec_append (l1 l2 : List CounterOp) :
    countDec (l1 ++ l2) = countDec l1 + countDec l2 := by
  simp [countDec, List.count_append]

lemma runOps_prefix_spec {H : Type} (ops : List CounterOp)
    (hbound : (countInc ops : Int) < 2 ^ 63)
    (hbal : ∀ pre, pre <+: ops → countDec pre ≤ countInc pre) :
    ∀ pre, pre <+: ops →
      connCountCur (runOps (initState H) pre) =
        (countInc pre : Int) - countDec pre := by
  intro pre
  induction pre using List.reverseRecOn with
  | nil =>
    intro _
    simp [runOps, connCountCur, initState, countInc, countDec]
  | append_singleton l a ih =>
    intro hpre
    have hl : l <+: ops := (List.prefix_append l [a]).trans hpre
    have hval := ih hl
    have hIl : countInc l ≤ countInc ops := by
      obtain ⟨t, rfl⟩ := hl
      rw [countInc_append]
      omega
    have hDl : countDec l ≤ countInc l := hbal l hl
    rw [runOps_append]
    cases a with
    | inc =>
      have e1 : countInc [CounterOp.inc] = 1 := by decide
      have e2 : countDec [CounterOp.inc] = 0 := by decide
      have hIp : countInc l + 1 ≤ countInc ops := by
        obtain ⟨t, rfl⟩ := hpre
        rw [countInc_append, countInc_append, e1]
        omega
      have hDl2 : (countDec l : Int) ≤ countInc l := by exact_mod_cast hDl
      have hIp2 : (countInc l : Int) + 1 ≤ countInc ops := by exact_mod_cast hIp
      have hpos : (0 : Int) < 2 ^ 63 := by positivity
      unfold connCountCur at hval
      rw [countInc_append, countDec_append, e1, e2]
      rw [runOps_inc]
      simp only [connCountCur, connCountInc]
      rw [hval, wrap64_eq_self (by linarith) (by linarith)]
      push_cast
      ring
    | dec =>
      have e1 : countInc [CounterOp.dec] = 0 := by decide
      have e2 : countDec [CounterOp.dec] = 1 := by decide
      have hDp : countDec l + 1 ≤ countInc l := by
        have hb2 := hbal (l ++ [CounterOp.dec]) hpre
        rw [countInc_append, countDec_append, e1, e2] at hb2
        omega
      have hDp2 : (countDec l : Int) + 1 ≤ countInc l := by exact_mod_cast hDp
      have hIl2 : (countInc l : Int) ≤ countInc ops := by exact_mod_cast hIl
      have hpos : (0 : Int) < 2 ^ 63 := by positivity
      unfold connCountCur at hval
      rw [countInc_append, countDec_append, e1, e2]
      rw [runOps_dec]
      simp only [connCountCur, connCountDec]
      rw [hval, wrap64_eq_self (by linarith) (by linarith)]
      push_cast
      ring

/-- C1, counterexample: the claim as stated — any order of N increments
and M decrements with N ≥ M keeps every intermediate snapshot
non-negative — is false for the code: the order `[dec, inc]` has
N = M = 1 but its intermediate snapshot after the decrement is −1,
because `connCountDec` has no lower guard. -/
theorem C1_connCounter_counterexample :
    ¬ (∀ ops : List CounterOp, countDec ops ≤ countInc ops →
        connCountCur (runOps (initState Unit) ops) =
            (countInc ops : Int) - countDec ops ∧
          ∀ pre, pre <+: ops → 0 ≤ connCountCur (runOps (initState Unit) pre)) := by
  intro h
  have h1 := (h [CounterOp.dec, CounterOp.inc] (by decide)).2
      [CounterOp.dec] ⟨[CounterOp.inc], rfl⟩
  revert h1
  decide

/-- C1 (amended): for any serialized interleaving of increments and
decrements in which every prefix has at least as many increments as
decrements (each decrement paired with a prior increment) and the
total number of increments stays below 2^63 (no 64-bit overflow), the
final snapshot equals N − M and no intermediate snapshot is negative. -/
theorem C1_connCounter_balanced {H : Type} (ops : List CounterOp)
    (hbal : ∀ k ≤ ops.length, countDec (ops.take k) ≤ countInc (ops.take k))
    (hbound : (countInc ops : Int) < 2 ^ 63) :
    connCountCur (runOps (initState H) ops) =
        (countInc ops : Int) - countDec ops ∧
      ∀ pre, pre <+: ops → 0 ≤ connCountCur (runOps (initState H) pre) := by
  have hbal2 : ∀ pre, pre <+: ops → countDec pre ≤ countInc pre := by
    intro pre hpre
    have h1 : pre.length ≤ ops.length := hpre.length_le
    have h2 : ops.take pre.length = pre := by
      obtain ⟨t, rfl⟩ := hpre
      simp
    have h3 := hbal pre.length h1
    rwa [h2] at h3
  have key := runOps_prefix_spec (H := H) ops hbound hbal2
  refine ⟨key ops (List.prefix_refl ops), ?_⟩
  intro pre hpre
  rw [key pre hpre]
  have h4 : (countDec pre : Int) ≤ countInc pre := by
    exact_mod_cast hbal2 pre hpre
  linarith

/-- Witness for C1 (amended) at the concrete history
`[inc, inc, dec]`. -/
theorem C1_connCounter_balanced_witness :
    (∀ k ≤ ([CounterOp.inc, CounterOp.inc, CounterOp.dec]).length,
        countDec (([CounterOp.inc, CounterOp.inc, CounterOp.dec]).take k) ≤
          countInc (([CounterOp.inc, CounterOp.inc, CounterOp.dec]).take k)) ∧
      ((countInc [CounterOp.inc, CounterOp.inc, CounterOp.dec] : Int) < 2 ^ 63) ∧
      (connCountCur (runOps (initState Unit)
            [CounterOp.inc, CounterOp.inc, CounterOp.dec]) =
          (countInc [CounterOp.inc, CounterOp.inc, CounterOp.dec] : Int) -
            countDec [CounterOp.inc, CounterOp.inc, CounterOp.dec] ∧
        ∀ pre, pre <+: [CounterOp.inc, CounterOp.inc, CounterOp.dec] →
          0 ≤ connCountCur (runOps (initState Unit) pre)) :=
  ⟨by decide, by decide,
    C1_connCounter_balanced [CounterOp.inc, CounterOp.inc, CounterOp.dec]
      (by decide) (by decide)⟩

/-! ### The privilege drop (C4, C5) -/

lemma chrootGidEvents_no_setuid (env : SysEnv) (u : GoUser) :
    ∀ e ∈ chrootGidEvents env u, ∀ n, e ≠ Ev.setuidCall n := by
  intro e he n
  unfold chrootGidEvents at he
  split at he
  · simp at he
    simp [he]
  · split at he <;> simp at he <;> rcases he with rfl | rfl <;> simp

lemma chrootUidEvents_no_setgid (env : SysEnv) (u : GoUser) :
    ∀ e ∈ chrootUidEvents env u, ∀ g, e ≠ Ev.setgidCall g := by
  intro e he g
  unfold chrootUidEvents at he
  split at he
  · simp at he
    simp [he]
  · split at he <;> simp at he <;> rcases he with rfl | rfl <;> simp

lemma chrootConfineEvents_no_setgid {H : Type} (s : MasterState H) (env : SysEnv) :
    ∀ e ∈ chrootConfineEvents s env, ∀ g, e ≠ Ev.setgidCall g := by
  intro e he g
  unfold chrootConfineEvents at he
  split at he
  · split at he
    · split at he <;> simp at he <;> rcases he with rfl | rfl | rfl | rfl <;> simp
    · simp at he
      rcases he with rfl | rfl <;> simp
  · simp at he

lemma setgidErr_mem_gidEvents (env : SysEnv) (u : GoUser) (g : Int)
    (hg : goAtoi u.gid = some g) (hfail : env.setgid g = false) :
    Ev.log LogTag.setgidErr ∈ chrootGidEvents env u := by
  unfold chrootGidEvents
  rw [hg]
  simp [hfail]

lemma invalidGid_mem_gidEvents (env : SysEnv) (u : GoUser)
    (hg : goAtoi u.gid = none) :
    Ev.log LogTag.invalidGid ∈ chrootGidEvents env u := by
  unfold chrootGidEvents
  rw [hg]
  simp

lemma setuidCall_mem_uidEvents (env : SysEnv) (u : GoUser) (n : Int)
    (hu : goAtoi u.uid = some n) :
    Ev.setuidCall n ∈ chrootUidEvents env u := by
  unfold chrootUidEvents
  rw [hu]
  by_cases hs : env.setuid n <;> simp [hs]

/-- C4: the privilege drop is gated by one short-circuit disjunction —
empty `master_args`, unprivileged mode off, or empty username — and
when the gate fires, `chroot` performs nothing at all: no username
lookup, no gid/uid syscall, and no root-confinement step. -/
theorem C4_chroot_gate {H : Type} (s : MasterState H) (env : SysEnv)
    (h : s.masterArgs = "" ∨ s.privilege = false ∨ s.username = "") :
    chroot s env = [] := by
  unfold chroot
  rw [if_pos h]

/-- Witness for C4: in the initial state (all three conditions hold)
no event is emitted even under an environment that would succeed. -/
theorem C4_chroot_gate_witness :
    ((initState Unit).masterArgs = "" ∨ (initState Unit).privilege = false ∨
        (initState Unit).username = "") ∧
      chroot (initState Unit)
          { lookup := fun _ => none, setgid := fun _ => true,
            setuid := fun _ => true, chroot := fun _ => true,
            chdir := true } = [] :=
  ⟨Or.inl rfl, C4_chroot_gate _ _ (Or.inl rfl)⟩

/-- C5: when the gate passes and the username resolves, the trace of
`chroot` splits into a first part (lookup and the gid arm) that
contains every `Setgid` call and no `Setuid` call, and a second part
that contains no `Setgid` call; a gid parse failure or a failed
`Setgid` is logged in the first part, and the `Setuid` call is still
attempted in the second part whenever the uid parses — so the group id
is set strictly before the user id, and a gid failure never blocks the
uid attempt. -/
theorem C5_gid_before_uid {H : Type} (s : MasterState H) (env : SysEnv)
    (u : GoUser)
    (hargs : s.masterArgs ≠ "") (hpriv : s.privilege = true)
    (huser : s.username ≠ "")
    (hlook : env.lookup s.username = some u) :
    ∃ l1 l2, chroot s env = l1 ++ l2 ∧
      (∀ e ∈ l1, ∀ n, e ≠ Ev.setuidCall n) ∧
      (∀ e ∈ l2, ∀ g, e ≠ Ev.setgidCall g) ∧
      (∀ g, goAtoi u.gid = some g → env.setgid g = false →
        Ev.log LogTag.setgidErr ∈ l1) ∧
      (goAtoi u.gid = none → Ev.log LogTag.invalidGid ∈ l1) ∧
      (∀ n, goAtoi u.uid = some n → Ev.setuidCall n ∈ l2) := by
  refine ⟨Ev.lookupUser s.username :: chrootGidEvents env u,
    chrootUidEvents env u ++ chrootConfineEvents s env, ?_, ?_, ?_, ?_, ?_, ?_⟩
  · unfold chroot
    rw [if_neg (by simp [hargs, hpriv, huser]), hlook]
    simp
  · intro e he n
    rcases List.mem_cons.mp he with rfl | he2
    · simp
    · exact chrootGidEvents_no_setuid env u e he2 n
  · intro e he g
    rcases List.mem_append.mp he with he2 | he2
    · exact chrootUidEvents_no_setgid env u e he2 g
    · exact chrootConfineEvents_no_setgid s env e he2 g
  · intro g hg hfail
    exact List.mem_cons_of_mem _ (setgidErr_mem_gidEvents env u g hg hfail)
  · intro hg
    exact List.mem_cons_of_mem _ (invalidGid_mem_gidEvents env u hg)
  · intro n hu
    exact List.mem_append_left _ (setuidCall_mem_uidEvents env u n hu)

/-- A configured state for exercising the privilege drop: privilege-drop
requested, unprivileged mode on, and a target username set. -/
def c5State : MasterState Unit :=
  { initState Unit with masterArgs := "-u", privilege := true, username := "joe" }

/-- An environment where the username resolves, the gid parses but
`Setgid` fails, and `Setuid` succeeds. -/
def c5Env : SysEnv where
  lookup := fun name => if name = "joe" then some ⟨"1001", "20"⟩ else none
  setgid := fun _ => false
  setuid := fun _ => true
  chroot := fun _ => false
  chdir := false

/-- Witness for C5: with user `joe` resolving to uid 1001 / gid 20 and
a failing `Setgid`, the split of the trace exists concretely. -/
theorem C5_gid_before_uid_witness :
    (c5State.masterArgs ≠ "" ∧ c5State.privilege = true ∧
        c5State.username ≠ "" ∧
        c5Env.lookup c5State.username = some ⟨"1001", "20"⟩) ∧
      ∃ l1 l2, chroot c5State c5Env = l1 ++ l2 ∧
        (∀ e ∈ l1, ∀ n, e ≠ Ev.setuidCall n) ∧
        (∀ e ∈ l2, ∀ g, e ≠ Ev.setgidCall g) ∧
        (∀ g, goAtoi (GoUser.mk "1001" "20").gid = some g →
          c5Env.setgid g = false → Ev.log LogTag.setgidErr ∈ l1) ∧
        (goAtoi (GoUser.mk "1001" "20").gid = none →
          Ev.log LogTag.invalidGid ∈ l1) ∧
        (∀ n, goAtoi (GoUser.mk "1001" "20").uid = some n →
          Ev.setuidCall n ∈ l2) :=
  ⟨⟨by decide, rfl, by decide, rfl⟩,
    C5_gid_before_uid c5State c5Env ⟨"1001", "20"⟩ (by decide) rfl (by decide) rfl⟩

/-! ### Listener acquisition (C6, C7) -/

lemma getListenersFrom_length {L : Type} (conv : Nat → Option L) :
    ∀ (n fd : Nat), (getListenersFrom conv fd n).length ≤ n := by
  intro n
  induction n with
  | zero => intro fd; simp [getListenersFrom]
  | succ m ih =>
    intro fd
    unfold getListenersFrom
    cases conv fd with
    | none => exact le_trans (ih (fd + 1)) (Nat.le_succ m)
    | some ln => simpa using ih (fd + 1)

lemma getListenersFrom_mem_iff {L : Type} (conv : Nat → Option L) :
    ∀ (n fd f : Nat) (ln : L),
      (f, ln) ∈ getListenersFrom conv fd n ↔
        fd ≤ f ∧ f < fd + n ∧ conv f = some ln := by
  intro n
  induction n with
  | zero =>
    intro fd f ln
    simp [getListenersFrom]
    omega
  | succ m ih =>
    intro fd f ln
    unfold getListenersFrom
    cases hc : conv fd with
    | none =>
      rw [ih]
      constructor
      · rintro ⟨h1, h2, h3⟩
        exact ⟨by omega, by omega, h3⟩
      · rintro ⟨h1, h2, h3⟩
        have hne : f ≠ fd := by
          rintro rfl
          rw [hc] at h3
          exact Option.noConfusion h3
        exact ⟨by omega, by omega, h3⟩
    | some l0 =>
      simp only [List.mem_cons, ih]
      constructor
      · rintro (heq | ⟨h1, h2, h3⟩)
        · injection heq with hf hl
          subst hf
          subst hl
          exact ⟨le_refl _, by omega, hc⟩
        · exact ⟨by omega, by omega, h3⟩
      · rintro ⟨h1, h2, h3⟩
        by_cases hf : f = fd
        · subst hf
          rw [hc] at h3
          injection h3 with h4
          subst h4
          left
          rfl
        · right
          exact ⟨by omega, by omega, h3⟩

lemma getListenersFrom_pairwise {L : Type} (conv : Nat → Option L) :
    ∀ (n fd : Nat),
      List.Pairwise (fun p q => p.1 < q.1) (getListenersFrom conv fd n) := by
  intro n
  induction n with
  | zero => intro fd; simp [getListenersFrom]
  | succ m ih =>
    intro fd
    unfold getListenersFrom
    cases conv fd with
    | none => exact ih (fd + 1)
    | some l0 =>
      refine List.Pairwise.cons ?_ (ih (fd + 1))
      intro q hq
      have h1 := ((getListenersFrom_mem_iff conv m (fd + 1) q.1 q.2).mp (by simpa using hq)).1
      simpa using by omega

/-- C6: in inherited mode, `getListeners` returns at most `count`
listeners, in strictly ascending descriptor order, and a descriptor of
the scanned range appears exactly when its `net.FileListener`
conversion succeeds — failed descriptors are skipped, never fatal. -/
theorem C6_getListeners_inherited {L : Type} (fileListener : Nat → Option L)
    (count : Nat) :
    (getListeners fileListener count).length ≤ count ∧
      List.Pairwise (fun p q => p.1 < q.1) (getListeners fileListener count) ∧
      ∀ f ln, (f, ln) ∈ getListeners fileListener count ↔
        listenFdStart ≤ f ∧ f < listenFdStart + count ∧ fileListener f = some ln :=
  ⟨getListenersFrom_length fileListener count listenFdStart,
    getListenersFrom_pairwise fileListener count listenFdStart,
    fun f ln => getListenersFrom_mem_iff fileListener count listenFdStart f ln⟩

/-- C7: in standalone mode a successful acquisition binds every address
(no silent skips), and a single failing bind makes the whole
acquisition fail — the Go code panics, modelled as `Except.error`, so
no partial listener set is ever returned. -/
theorem C7_standalone_bind_all_or_fail {L : Type}
    (netListen : String → Except String L) (addrs : List String) :
    (∀ lns, getListenersByAddrs netListen addrs = Except.ok lns →
        lns.length = addrs.length ∧
          ∀ a ∈ addrs, ∃ ln, netListen a = Except.ok ln) ∧
      ((∃ a ∈ addrs, ∃ e, netListen a = Except.error e) →
        ∃ msg, getListenersByAddrs netListen addrs = Except.error msg) := by
  induction addrs with
  | nil =>
    constructor
    · intro lns h
      simp [getListenersByAddrs] at h
      subst h
      simp
    · rintro ⟨a, ha, _⟩
      simp at ha
  | cons a rest ih =>
    constructor
    · intro lns h
      unfold getListenersByAddrs at h
      cases hn : netListen a with
      | error e =>
        rw [hn] at h
        simp at h
      | ok ln =>
        rw [hn] at h
        cases hr : getListenersByAddrs netListen rest with
        | error e =>
          rw [hr] at h
          simp at h
        | ok lns2 =>
          rw [hr] at h
          simp at h
          subst h
          obtain ⟨hlen, hall⟩ := ih.1 lns2 hr
          refine ⟨by simp [hlen], ?_⟩
          intro b hb
          rcases List.mem_cons.mp hb with rfl | hb2
          · exact ⟨ln, hn⟩
          · exact hall b hb2
    · rintro ⟨b, hb, e, he⟩
      unfold getListenersByAddrs
      rcases List.mem_cons.mp hb with rfl | hb2
      · rw [he]
        exact ⟨_, rfl⟩
      · cases hn : netListen a with
        | error e2 => exact ⟨_, rfl⟩
        | ok ln =>
          obtain ⟨msg, hmsg⟩ := ih.2 ⟨b, hb2, e, he⟩
          rw [hmsg]
          exact ⟨msg, rfl⟩

/-- A standalone bind environment over descriptor tokens where only the
address `bad:1` fails to bind. -/
def c7NetListen : String → Except String Nat :=
  fun a => if a = "bad:1" then Except.error "address in use" else Except.ok 0

/-- Witness for C7: with one unbindable address in the list, the whole
acquisition fails. -/
theorem C7_standalone_bind_witness :
    (∃ a ∈ ["ok:1", "bad:1"], ∃ e, c7NetListen a = Except.error e) ∧
      ∃ msg, getListenersByAddrs c7NetListen ["ok:1", "bad:1"] =
        Except.error msg :=
  ⟨⟨"bad:1", by simp, "address in use", rfl⟩,
    (C7_standalone_bind_all_or_fail c7NetListen ["ok:1", "bad:1"]).2
      ⟨"bad:1", by simp, "address in use", rfl⟩⟩

/-! ### The shutdown monitor (C2, C3, C8) -/

lemma drainLoop_exit_now (snaps : Nat → Int) (w : Int) (fuel i : Nat)
    (h : snaps i ≤ 0) :
    drainLoop snaps w (fuel + 1) i = some [Ev.readCounter (snaps i)] := by
  unfold drainLoop
  rw [if_pos h]

lemma drainLoop_deadline_bound (snaps : Nat → Int) (w : Int) :
    ∀ (fuel i : Nat), (i : Int) < w → w ≤ (i : Int) + (fuel : Int) →
      ∃ dr, drainLoop snaps w fuel i = some dr ∧
        ((dr.count Ev.sleepSecond : Int) ≤ w - i) := by
  intro fuel
  induction fuel with
  | zero =>
    intro i h1 h2
    exfalso
    push_cast at h2
    omega
  | succ m ih =>
    intro i h1 h2
    by_cases hc : snaps i ≤ 0
    · refine ⟨[Ev.readCounter (snaps i)], drainLoop_exit_now snaps w m i hc, ?_⟩
      simp [List.count_cons]
      omega
    · by_cases hw : 0 < w ∧ w ≤ (i : Int) + 1
      · refine ⟨[Ev.readCounter (snaps i), Ev.sleepSecond, Ev.log LogTag.draining,
          Ev.log LogTag.waitedTooLong], ?_, ?_⟩
        · unfold drainLoop
          rw [if_neg hc, if_pos hw]
        · simp [List.count_cons]
          omega
      · have hw2 : ¬ w ≤ (i : Int) + 1 := fun hle => hw ⟨by omega, hle⟩
        obtain ⟨dr, hdr, hcount⟩ := ih (i + 1) (by push_cast; omega)
          (by push_cast; push_cast at h2; omega)
        refine ⟨Ev.readCounter (snaps i) :: Ev.sleepSecond ::
          Ev.log LogTag.draining :: dr, ?_, ?_⟩
        · unfold drainLoop
          rw [if_neg hc, if_neg hw, hdr]
          rfl
        · simp [List.count_cons]
          push_cast at hcount
          omega

lemma drainLoop_no_forced_exit (snaps : Nat → Int) (w : Int) (hw : w ≤ 0)
    (hpos : ∀ k, 0 < snaps k) :
    ∀ (fuel i : Nat), drainLoop snaps w fuel i = none := by
  intro fuel
  induction fuel with
  | zero => intro i; rfl
  | succ m ih =>
    intro i
    unfold drainLoop
    rw [if_neg (by have := hpos i; omega), if_neg (by rintro ⟨h1, _⟩; omega),
      ih (i + 1)]
    rfl

lemma drainLoop_exit_reason (snaps : Nat → Int) (w : Int) :
    ∀ (fuel i : Nat) (dr : List Ev), drainLoop snaps w fuel i = some dr →
      (∃ k, i ≤ k ∧ snaps k ≤ 0) ∨ 0 < w := by
  intro fuel
  induction fuel with
  | zero => intro i dr h; exact Option.noConfusion h
  | succ m ih =>
    intro i dr h
    by_cases hc : snaps i ≤ 0
    · exact Or.inl ⟨i, le_refl i, hc⟩
    · unfold drainLoop at h
      rw [if_neg hc] at h
      by_cases hw : 0 < w ∧ w ≤ (i : Int) + 1
      · exact Or.inr hw.1
      · rw [if_neg hw] at h
        cases hr : drainLoop snaps w m (i + 1) with
        | none =>
          rw [hr] at h
          simp at h
        | some dr2 =>
          rcases ih (i + 1) dr2 hr with ⟨k, hk, hks⟩ | hpos
          · exact Or.inl ⟨k, by omega, hks⟩
          · exact Or.inr hpos

lemma drainLoop_events (snaps : Nat → Int) (w : Int) :
    ∀ (fuel i : Nat) (dr : List Ev), drainLoop snaps w fuel i = some dr →
      ∀ e ∈ dr, (∃ c, e = Ev.readCounter c) ∨ e = Ev.sleepSecond ∨
        ∃ t, e = Ev.log t := by
  intro fuel
  induction fuel with
  | zero => intro i dr h; exact Option.noConfusion h
  | succ m ih =>
    intro i dr h
    unfold drainLoop at h
    by_cases hc : snaps i ≤ 0
    · rw [if_pos hc] at h
      simp at h
      subst h
      intro e he
      simp at he
      subst he
      exact Or.inl ⟨snaps i, rfl⟩
    · rw [if_neg hc] at h
      by_cases hw : 0 < w ∧ w ≤ (i : Int) + 1
      · rw [if_pos hw] at h
        simp at h
        subst h
        intro e he
        simp at he
        rcases he with rfl | rfl | rfl | rfl
        · exact Or.inl ⟨snaps i, rfl⟩
        · exact Or.inr (Or.inl rfl)
        · exact Or.inr (Or.inr ⟨LogTag.draining, rfl⟩)
        · exact Or.inr (Or.inr ⟨LogTag.waitedTooLong, rfl⟩)
      · rw [if_neg hw] at h
        cases hr : drainLoop snaps w m (i + 1) with
        | none =>
          rw [hr] at h
          simp at h
        | some dr2 =>
          rw [hr] at h
          simp at h
          subst h
          intro e he
          simp at he
          rcases he with rfl | rfl | rfl | he2
          · exact Or.inl ⟨snaps i, rfl⟩
          · exact Or.inr (Or.inl rfl)
          · exact Or.inr (Or.inr ⟨LogTag.draining, rfl⟩)
          · exact ih (i + 1) dr2 hr e he2

/-- C3: termination of the drain loop.  (a) a poll that sees a counter
≤ 0 exits at once, with no sleep event; (b) a positive deadline `w`
bounds the loop: it exits within `w` polls and sleeps at most `w`
times even if the counter never drops; (c) a deadline ≤ 0 never forces
an exit: if the counter stays positive the loop runs forever, and
(d) with a deadline ≤ 0 any exit is due to a snapshot ≤ 0.  The
configured deadline `waitExit` defaults to 10. -/
theorem C3_drain_terminates (snaps : Nat → Int) (w : Int) :
    (snaps 0 ≤ 0 → ∀ fuel,
        drainLoop snaps w (fuel + 1) 0 = some [Ev.readCounter (snaps 0)]) ∧
      (0 < w → ∃ dr, drainLoop snaps w w.toNat 0 = some dr ∧
        ((dr.count Ev.sleepSecond : Int) ≤ w)) ∧
      (w ≤ 0 → (∀ k, 0 < snaps k) →
        ∀ fuel i, drainLoop snaps w fuel i = none) ∧
      (w ≤ 0 → ∀ fuel dr, drainLoop snaps w fuel 0 = some dr →
        ∃ k, snaps k ≤ 0) ∧
      (initState Unit).waitExit = 10 := by
  refine ⟨?_, ?_, ?_, ?_, rfl⟩
  · intro h fuel
    exact drainLoop_exit_now snaps w fuel 0 h
  · intro hw
    obtain ⟨dr, hdr, hcount⟩ := drainLoop_deadline_bound snaps w w.toNat 0
      (by simpa using hw) (by simp [Int.toNat_of_nonneg (le_of_lt hw)])
    exact ⟨dr, hdr, by simpa using hcount⟩
  · exact drainLoop_no_forced_exit snaps w
  · intro hw fuel dr h
    rcases drainLoop_exit_reason snaps w fuel 0 dr h with ⟨k, _, hk⟩ | hpos
    · exact ⟨k, hk⟩
    · exfalso
      omega

/-- Witness for C3 at a counter stream that never drops and deadline
2: the loop exits with at most two sleeps. -/
theorem C3_drain_terminates_witness :
    (0 : Int) < 2 ∧
      ∃ dr, drainLoop (fun _ => 1) 2 (Int.toNat 2) 0 = some dr ∧
        ((dr.count Ev.sleepSecond : Int) ≤ 2) :=
  ⟨by norm_num, (C3_drain_terminates (fun _ => 1) 2).2.1 (by norm_num)⟩

lemma closeEvents_shape (n : Nat) :
    ∀ e ∈ closeEvents n,
      e = Ev.log LogTag.closingListener ∨ ∃ k, e = Ev.closeListener k := by
  intro e he
  unfold closeEvents at he
  simp [List.mem_flatMap] at he
  obtain ⟨k, _, hk⟩ := he
  rcases hk with rfl | rfl
  · exact Or.inl rfl
  · exact Or.inr ⟨k, rfl⟩

lemma monitorMaster_some (readErr hasStopHandler : Bool) (numListeners : Nat)
    (snaps : Nat → Int) (w : Int) (fuel : Nat) (tr : List Ev)
    (h : monitorMaster readErr hasStopHandler numListeners snaps w fuel =
      some tr) :
    ∃ dr, drainLoop snaps w fuel 0 = some dr ∧
      tr = (Ev.log LogTag.waitingMaster ::
          (if readErr then [Ev.log LogTag.disconnected] else [])) ++
        ([Ev.setStopping] ++
          (if hasStopHandler then [Ev.callStopHook] else closeEvents numListeners) ++
          dr ++ [Ev.log LogTag.exitingNow, Ev.callExitCb true]) := by
  unfold monitorMaster at h
  cases hd : drainLoop snaps w fuel 0 with
  | none =>
    rw [hd] at h
    simp at h
  | some dr =>
    rw [hd] at h
    simp at h
    refine ⟨dr, rfl, ?_⟩
    rw [← h]
    simp [List.append_assoc]

/-- C2: whenever the control read returns — with data or with an
error/end-of-stream, both handled alike — the monitor's terminating
trace decomposes as: log lines only, then the `stopping` flag set,
then the stop hook if present (otherwise the close of every acquired
listener), then the drain part, which contains only counter reads,
sleeps and logs: so the flag assignment and the hook/close fallback
run strictly before the first drain-loop read of the counter. -/
theorem C2_stop_before_drain (readErr hasStopHandler : Bool)
    (numListeners : Nat) (snaps : Nat → Int) (w : Int) (fuel : Nat)
    (tr : List Ev)
    (h : monitorMaster readErr hasStopHandler numListeners snaps w fuel =
      some tr) :
    ∃ pre dr,
      tr = pre ++ [Ev.setStopping] ++
          (if hasStopHandler then [Ev.callStopHook] else closeEvents numListeners) ++
          dr ++ [Ev.log LogTag.exitingNow, Ev.callExitCb true] ∧
        (∀ e ∈ pre, ∃ t, e = Ev.log t) ∧
        drainLoop snaps w fuel 0 = some dr ∧
        (∀ e ∈ dr, (∃ c, e = Ev.readCounter c) ∨ e = Ev.sleepSecond ∨
          ∃ t, e = Ev.log t) := by
  obtain ⟨dr, hdr, htr⟩ := monitorMaster_some readErr hasStopHandler
    numListeners snaps w fuel tr h
  refine ⟨Ev.log LogTag.waitingMaster ::
      (if readErr then [Ev.log LogTag.disconnected] else []), dr, ?_, ?_, hdr,
    drainLoop_events snaps w fuel 0 dr hdr⟩
  · rw [htr]
    simp [List.append_assoc]
  · intro e he
    rcases List.mem_cons.mp he with rfl | he2
    · exact ⟨LogTag.waitingMaster, rfl⟩
    · cases readErr
      · simp at he2
      · simp at he2
        subst he2
        exact ⟨LogTag.disconnected, rfl⟩

/-- Witness for C2: a concrete terminating run (no read error, stop
hook registered, counter already at zero) decomposes as claimed. -/
theorem C2_stop_before_drain_witness :
    monitorMaster false true 0 (fun _ => 0) 10 1 =
        some [Ev.log LogTag.waitingMaster, Ev.setStopping, Ev.callStopHook,
          Ev.readCounter 0, Ev.log LogTag.exitingNow, Ev.callExitCb true] ∧
      ∃ pre dr,
        [Ev.log LogTag.waitingMaster, Ev.setStopping, Ev.callStopHook,
            Ev.readCounter 0, Ev.log LogTag.exitingNow, Ev.callExitCb true] =
            pre ++ [Ev.setStopping] ++
            (if true then [Ev.callStopHook] else closeEvents 0) ++
            dr ++ [Ev.log LogTag.exitingNow, Ev.callExitCb true] ∧
          (∀ e ∈ pre, ∃ t, e = Ev.log t) ∧
          drainLoop (fun _ => 0) 10 1 0 = some dr ∧
          (∀ e ∈ dr, (∃ c, e = Ev.readCounter c) ∨ e = Ev.sleepSecond ∨
            ∃ t, e = Ev.log t) :=
  ⟨rfl, C2_stop_before_drain false true 0 (fun _ => 0) 10 1 _ rfl⟩

lemma count_exitCb_closeEvents (n : Nat) :
    (closeEvents n).count (Ev.callExitCb true) = 0 := by
  rw [List.count_eq_zero]
  intro hmem
  rcases closeEvents_shape n _ hmem with h | ⟨k, h⟩ <;> simp at h

lemma count_exitCb_drain (snaps : Nat → Int) (w : Int) (fuel i : Nat)
    (dr : List Ev) (h : drainLoop snaps w fuel i = some dr) :
    dr.count (Ev.callExitCb true) = 0 := by
  rw [List.count_eq_zero]
  intro hmem
  rcases drainLoop_events snaps w fuel i dr h _ hmem with ⟨c, hc⟩ | hc | ⟨t, hc⟩ <;>
    simp at hc

/-- C8: every terminating run of the monitor invokes the exit callback
exactly once, always with flag `true`, as the very last event of the
run — hence only after the drain loop has ended, which can only happen
because some snapshot was ≤ 0 or a positive deadline was configured. -/
theorem C8_exit_callback_once (readErr hasStopHandler : Bool)
    (numListeners : Nat) (snaps : Nat → Int) (w : Int) (fuel : Nat)
    (tr : List Ev)
    (h : monitorMaster readErr hasStopHandler numListeners snaps w fuel =
      some tr) :
    tr.count (Ev.callExitCb true) = 1 ∧
      (∀ b, Ev.callExitCb b ∈ tr → b = true) ∧
      tr.getLast? = some (Ev.callExitCb true) ∧
      ((∃ k, snaps k ≤ 0) ∨ 0 < w) := by
  obtain ⟨dr, hdr, htr⟩ := monitorMaster_some readErr hasStopHandler
    numListeners snaps w fuel tr h
  have hpre0 : (if readErr then [Ev.log LogTag.disconnected] else []).count
      (Ev.callExitCb true) = 0 := by
    cases readErr <;> simp [List.count_cons]
  have hstop0 : (if hasStopHandler then [Ev.callStopHook]
      else closeEvents numListeners).count (Ev.callExitCb true) = 0 := by
    cases hasStopHandler <;> simp [count_exitCb_closeEvents, List.count_cons]
  refine ⟨?_, ?_, ?_, ?_⟩
  · rw [htr]
    simp [List.count_append, hpre0, hstop0,
      count_exitCb_drain snaps w fuel 0 dr hdr, List.count_cons]
  · intro b hb
    rw [htr] at hb
    rcases List.mem_append.mp hb with h1 | h1
    · rcases List.mem_cons.mp h1 with h2 | h2
      · exact absurd h2 (by simp)
      · cases readErr <;> simp at h2
    · rcases List.mem_append.mp h1 with h2 | h2
      · rcases List.mem_append.mp h2 with h3 | h3
        · rcases List.mem_append.mp h3 with h4 | h4
          · simp at h4
          · cases hasStopHandler
            · rcases closeEvents_shape numListeners _ h4 with h5 | ⟨k, h5⟩ <;>
                simp at h5
            · simp at h4
        · rcases drainLoop_events snaps w fuel 0 dr hdr _ h3 with
            ⟨c, h4⟩ | h4 | ⟨t, h4⟩ <;> simp at h4
      · simp at h2
        exact h2
  · have h2 : tr = (Ev.log LogTag.waitingMaster ::
        (if readErr then [Ev.log LogTag.disconnected] else []) ++
        ([Ev.setStopping] ++
          (if hasStopHandler then [Ev.callStopHook] else closeEvents numListeners) ++
          dr ++ [Ev.log LogTag.exitingNow])) ++ [Ev.callExitCb true] := by
      rw [htr]
      simp [List.append_assoc]
    rw [h2, List.getLast?_concat]
  · rcases drainLoop_exit_reason snaps w fuel 0 dr hdr with ⟨k, _, hk⟩ | hp
    · exact Or.inl ⟨k, hk⟩
    · exact Or.inr hp

/-- Witness for C8 at the same concrete run as C2's witness. -/
theorem C8_exit_callback_once_witness :
    monitorMaster false true 0 (fun _ => 0) 10 1 =
        some [Ev.log LogTag.waitingMaster, Ev.setStopping, Ev.callStopHook,
          Ev.readCounter 0, Ev.log LogTag.exitingNow, Ev.callExitCb true] ∧
      ([Ev.log LogTag.waitingMaster, Ev.setStopping, Ev.callStopHook,
          Ev.readCounter 0, Ev.log LogTag.exitingNow,
          Ev.callExitCb true].count (Ev.callExitCb true) = 1 ∧
        (∀ b, Ev.callExitCb b ∈
            [Ev.log LogTag.waitingMaster, Ev.setStopping, Ev.callStopHook,
              Ev.readCounter 0, Ev.log LogTag.exitingNow,
              Ev.callExitCb true] → b = true) ∧
        [Ev.log LogTag.waitingMaster, Ev.setStopping, Ev.callStopHook,
            Ev.readCounter 0, Ev.log LogTag.exitingNow,
            Ev.callExitCb true].getLast? = some (Ev.callExitCb true) ∧
        ((∃ _ : Nat, (0 : Int) ≤ 0) ∨ (0 : Int) < 10)) :=
  ⟨rfl, C8_exit_callback_once false true 0 (fun _ => 0) 10 1
    [Ev.log LogTag.waitingMaster, Ev.setStopping, Ev.callStopHook,
      Ev.readCounter 0, Ev.log LogTag.exitingNow, Ev.callExitCb true] rfl⟩

/-! ### Hook wiring (C9) and Prepare (C10) -/

lemma chrootGidEvents_shape (env : SysEnv) (u : GoUser) :
    ∀ e ∈ chrootGidEvents env u,
      (∃ g, e = Ev.setgidCall g) ∨ ∃ t, e = Ev.log t := by
  intro e he
  unfold chrootGidEvents at he
  split at he
  · simp at he
    exact Or.inr ⟨_, he⟩
  · split at he
    · simp at he
      rcases he with rfl | rfl
      · exact Or.inl ⟨_, rfl⟩
      · exact Or.inr ⟨_, rfl⟩
    · simp at he
      rcases he with rfl | rfl
      · exact Or.inl ⟨_, rfl⟩
      · exact Or.inr ⟨_, rfl⟩

lemma chrootUidEvents_shape (env : SysEnv) (u : GoUser) :
    ∀ e ∈ chrootUidEvents env u,
      (∃ n, e = Ev.setuidCall n) ∨ ∃ t, e = Ev.log t := by
  intro e he
  unfold chrootUidEvents at he
  split at he
  · simp at he
    exact Or.inr ⟨_, he⟩
  · split at he
    · simp at he
      rcases he with rfl | rfl
      · exact Or.inl ⟨_, rfl⟩
      · exact Or.inr ⟨_, rfl⟩
    · simp at he
      rcases he with rfl | rfl
      · exact Or.inl ⟨_, rfl⟩
      · exact Or.inr ⟨_, rfl⟩

lemma chrootConfineEvents_shape {H : Type} (s : MasterState H) (env : SysEnv) :
    ∀ e ∈ chrootConfineEvents s env,
      (∃ d, e = Ev.chrootCall d) ∨ e = Ev.chdirCall ∨ ∃ t, e = Ev.log t := by
  intro e he
  unfold chrootConfineEvents at he
  split at he
  · split at he
    · split at he
      · simp at he
        rcases he with rfl | rfl | rfl | rfl
        · exact Or.inl ⟨_, rfl⟩
        · exact Or.inr (Or.inr ⟨_, rfl⟩)
        · exact Or.inr (Or.inl rfl)
        · exact Or.inr (Or.inr ⟨_, rfl⟩)
      · simp at he
        rcases he with rfl | rfl | rfl | rfl
        · exact Or.inl ⟨_, rfl⟩
        · exact Or.inr (Or.inr ⟨_, rfl⟩)
        · exact Or.inr (Or.inl rfl)
        · exact Or.inr (Or.inr ⟨_, rfl⟩)
    · simp at he
      rcases he with rfl | rfl
      · exact Or.inl ⟨_, rfl⟩
      · exact Or.inr (Or.inr ⟨_, rfl⟩)
  · simp at he

lemma chroot_no_hook_events {H : Type} (s : MasterState H) (env : SysEnv) :
    ∀ e ∈ chroot s env, e ≠ Ev.callPreJailHandler ∧ e ≠ Ev.callInitHandler ∧
      e ≠ Ev.callExitHandler := by
  intro e he
  unfold chroot at he
  split at he
  · simp at he
  · rcases List.mem_append.mp he with he1 | he2
    · rcases List.mem_cons.mp he1 with rfl | he3
      · simp
      · split at he3
        · simp at he3
          subst he3
          simp
        · rcases List.mem_append.mp he3 with h4 | h4
          · rcases chrootGidEvents_shape env _ e h4 with ⟨g, rfl⟩ | ⟨t, rfl⟩ <;> simp
          · rcases chrootUidEvents_shape env _ e h4 with ⟨n, rfl⟩ | ⟨t, rfl⟩ <;> simp
    · rcases chrootConfineEvents_shape s env e he2 with ⟨d, rfl⟩ | rfl | ⟨t, rfl⟩ <;>
        simp

/-- C9: the pre-privilege-drop and post-initialization hooks are never
invoked by any embedded code path: their registration only stores the
callback, the privilege drop emits no hook invocation, and the monitor
— the only component that invokes a callback — never emits their
invocation events while it always invokes the exit callback. -/
theorem C9_hooks_never_invoked {H : Type} :
    (∀ (s : MasterState H) (hd : H),
        (OnPreJail s hd).preJailHandler = some hd ∧
          (OnInit s hd).initHandler = some hd) ∧
      (∀ (s : MasterState H) (env : SysEnv), ∀ e ∈ chroot s env,
        e ≠ Ev.callPreJailHandler ∧ e ≠ Ev.callInitHandler ∧
          e ≠ Ev.callExitHandler) ∧
      (∀ (readErr hasStopHandler : Bool) (numListeners : Nat)
          (snaps : Nat → Int) (w : Int) (fuel : Nat) (tr : List Ev),
        monitorMaster readErr hasStopHandler numListeners snaps w fuel =
            some tr →
          Ev.callPreJailHandler ∉ tr ∧ Ev.callInitHandler ∉ tr ∧
            Ev.callExitCb true ∈ tr) := by
  refine ⟨fun s hd => ⟨rfl, rfl⟩, fun s env => chroot_no_hook_events s env, ?_⟩
  intro readErr hasStopHandler numListeners snaps w fuel tr h
  obtain ⟨dr, hdr, htr⟩ := monitorMaster_some readErr hasStopHandler
    numListeners snaps w fuel tr h
  subst htr
  have hmem : ∀ e2 : Ev, (e2 = Ev.callPreJailHandler ∨ e2 = Ev.callInitHandler) →
      e2 ∉ (Ev.log LogTag.waitingMaster ::
        (if readErr then [Ev.log LogTag.disconnected] else [])) ++
        ([Ev.setStopping] ++
          (if hasStopHandler then [Ev.callStopHook] else closeEvents numListeners) ++
          dr ++ [Ev.log LogTag.exitingNow, Ev.callExitCb true]) := by
    intro e2 he2 hin
    rcases List.mem_append.mp hin with h1 | h1
    · rcases List.mem_cons.mp h1 with h2 | h2
      · rcases he2 with rfl | rfl <;> simp at h2
      · cases readErr
        · simp at h2
        · simp at h2
          rcases he2 with rfl | rfl <;> simp_all
    · rcases List.mem_append.mp h1 with h2 | h2
      · rcases List.mem_append.mp h2 with h3 | h3
        · rcases List.mem_append.mp h3 with h4 | h4
          · rcases he2 with rfl | rfl <;> simp at h4
          · cases hasStopHandler
            · rcases closeEvents_shape numListeners _ h4 with h5 | ⟨k, h5⟩ <;>
                rcases he2 with rfl | rfl <;> simp at h5
            · rcases he2 with rfl | rfl <;> simp at h4
        · rcases drainLoop_events snaps w fuel 0 dr hdr _ h3 with
            ⟨c, h4⟩ | h4 | ⟨t, h4⟩ <;> rcases he2 with rfl | rfl <;> simp at h4
      · rcases he2 with rfl | rfl <;> simp at h2
  refine ⟨hmem Ev.callPreJailHandler (Or.inl rfl), hmem Ev.callInitHandler (Or.inr rfl), ?_⟩
  apply List.mem_append_right
  apply List.mem_append_right
  simp

/-- Witness for C9 at a concrete monitor run: neither unused hook event
occurs in the trace and the exit callback does. -/
theorem C9_hooks_never_invoked_witness :
    monitorMaster false true 0 (fun _ => 0) 10 1 =
        some [Ev.log LogTag.waitingMaster, Ev.setStopping, Ev.callStopHook,
          Ev.readCounter 0, Ev.log LogTag.exitingNow, Ev.callExitCb true] ∧
      (Ev.callPreJailHandler ∉
          [Ev.log LogTag.waitingMaster, Ev.setStopping, Ev.callStopHook,
            Ev.readCounter 0, Ev.log LogTag.exitingNow, Ev.callExitCb true] ∧
        Ev.callInitHandler ∉
          [Ev.log LogTag.waitingMaster, Ev.setStopping, Ev.callStopHook,
            Ev.readCounter 0, Ev.log LogTag.exitingNow, Ev.callExitCb true] ∧
        Ev.callExitCb true ∈
          [Ev.log LogTag.waitingMaster, Ev.setStopping, Ev.callStopHook,
            Ev.readCounter 0, Ev.log LogTag.exitingNow, Ev.callExitCb true]) :=
  ⟨rfl, (C9_hooks_never_invoked (H := Unit)).2.2 false true 0 (fun _ => 0) 10 1
    [Ev.log LogTag.waitingMaster, Ev.setStopping, Ev.callStopHook,
      Ev.readCounter 0, Ev.log LogTag.exitingNow, Ev.callExitCb true] rfl⟩

lemma parseArgsLoop_prepareCalled {H : Type} (s : MasterState H)
    (args : List String) :
    (parseArgsLoop s args).prepareCalled = s.prepareCalled := by
  induction s, args using parseArgsLoop.induct <;> simp_all [parseArgsLoop]

lemma Prepare_of_called {H : Type} (conf : String → String → String)
    (s : MasterState H) (args : List String) (hp : s.prepareCalled = true) :
    Prepare conf s args = s := by
  unfold Prepare
  rw [if_pos hp]

/-- C10: `Prepare` is idempotent: after any call the called-flag is
set; a call on an already-prepared state returns it unchanged (no
re-parse, no state change); and a second call with arbitrary other
arguments and configuration is the identity on the first call's
result. -/
theorem C10_Prepare_once {H : Type} (conf conf2 : String → String → String)
    (s : MasterState H) (args args2 : List String) :
    (Prepare conf s args).prepareCalled = true ∧
      (s.prepareCalled = true → Prepare conf s args = s) ∧
      Prepare conf2 (Prepare conf s args) args2 = Prepare conf s args := by
  have hflag : (Prepare conf s args).prepareCalled = true := by
    unfold Prepare
    by_cases hp : s.prepareCalled
    · rw [if_pos hp]
      exact hp
    · rw [if_neg hp]
      simp [parseArgsLoop_prepareCalled]
  exact ⟨hflag, fun hp => Prepare_of_called conf s args hp,
    Prepare_of_called conf2 (Prepare conf s args) args2 hflag⟩

/-- Witness for C10: calling `Prepare` on an already-prepared state is
the identity. -/
theorem C10_Prepare_once_witness :
    ({ initState Unit with prepareCalled := true } :
        MasterState Unit).prepareCalled = true ∧
      Prepare (fun _ _ => "") { initState Unit with prepareCalled := true } [] =
        { initState Unit with prepareCalled := true } :=
  ⟨rfl, (C10_Prepare_once (fun _ _ => "") (fun _ _ => "")
    { initState Unit with prepareCalled := true } [] []).2.1 rfl⟩

end Master
